import Mathlib

/-!
Verification development for the Lima route-optimizer service.

The definitions below are a shallow embedding of the program's core
functions (route segment splitting, map-link coordinate extraction,
verified-store row operations, the directory-cache refresh loop, the
reconciliation trigger/run state machine, and the per-stop resolution
chain).  Python floats are modelled as exact decimal rationals (plus
explicit infinity/NaN values where Python `float()` can produce them);
machine floating-point rounding is not modelled, since none of the
verified properties depend on rounded values.  Network collaborators
(the Bsale directory API, the geocoder, short-link redirection, the
spreadsheet API transport) are modelled as explicit oracle parameters.
-/

namespace RouteOptimizer

/-! ## Route segment splitter (`app.py`, `generate_split_routes`) -/

/-- One entry of the list returned by `generate_split_routes`.  The
`url` field models the Google Maps directions URL by the ordered list
of points it encodes (`origin`, waypoints, `destination` joined into
the rendered link by `generate_google_maps_url`). -/
structure RoutePart (α : Type) where
  url : List α
  start : α
  endPoint : α
  waypoints : List α
  part_number : Nat
  total_parts : Nat
deriving DecidableEq

/-- `generate_google_maps_url` builds `base_url` plus the `lat,lng`
points `[origin] + ordered_waypoints + [destination]` joined by `/`;
we model the URL by that ordered point list. -/
def generate_google_maps_url {α : Type} (origin destination : α)
    (ordered_waypoints : List α) : List α :=
  [origin] ++ ordered_waypoints ++ [destination]

/-- The `while remaining_waypoints:` loop of `generate_split_routes`.
The extra fuel argument bounds the number of iterations; callers pass
the length of the waypoint list, which suffices whenever
`max_waypoints_per_route ≥ 1` because every iteration consumes at
least one waypoint.  (With a zero maximum the Python loop would not
terminate; fuel exhaustion returns the parts built so far.) -/
def generate_split_routes_loop {α : Type} [Inhabited α] (destination : α)
    (maxW : Nat) : Nat → α → Nat → Nat → List α → List (RoutePart α)
  | _, _, _, _, [] => []
  | 0, _, _, _, _ :: _ => []
  | fuel + 1, current_start, part_number, total_parts, x :: xs =>
    let remaining := x :: xs
    let chunk := remaining.take maxW
    let rest := remaining.drop maxW
    if rest.isEmpty then
      [{ url := generate_google_maps_url current_start destination chunk,
         start := current_start, endPoint := destination, waypoints := chunk,
         part_number := part_number, total_parts := total_parts }]
    else
      { url := generate_google_maps_url current_start chunk.getLast! chunk.dropLast,
        start := current_start, endPoint := chunk.getLast!,
        waypoints := chunk.dropLast, part_number := part_number,
        total_parts := total_parts } ::
      generate_split_routes_loop destination maxW fuel chunk.getLast!
        (part_number + 1) total_parts rest

/-- `generate_split_routes(origin, destination, ordered_waypoints,
max_waypoints_per_route=8)` from `app.py`. -/
def generate_split_routes {α : Type} [Inhabited α] (origin destination : α)
    (ordered_waypoints : List α) (maxW : Nat := 8) : List (RoutePart α) :=
  let total_waypoints := ordered_waypoints.length
  if total_waypoints ≤ maxW then
    [{ url := generate_google_maps_url origin destination ordered_waypoints,
       start := origin, endPoint := destination, waypoints := ordered_waypoints,
       part_number := 1, total_parts := 1 }]
  else
    let total_parts := (total_waypoints + maxW - 1) / maxW
    generate_split_routes_loop destination maxW total_waypoints origin 1
      total_parts ordered_waypoints

/-! ### Structural lemmas about the splitter loop -/

theorem dropLast_append_getLastBang {α : Type} [Inhabited α] :
    ∀ (l : List α), l ≠ [] → l.dropLast ++ [l.getLast!] = l
  | [_], _ => rfl
  | a :: b :: l, _ => by
    have ih := dropLast_append_getLastBang (b :: l) (by simp)
    simp only [List.dropLast_cons₂, List.getLast!_cons, List.getLastD_cons] at *
    simpa using ih

theorem generate_split_routes_loop_flatten {α : Type} [Inhabited α]
    (dest : α) (maxW : Nat) (h1 : 0 < maxW) :
    ∀ (fuel : Nat) (remaining : List α) (cur : α) (pn tp : Nat),
      remaining ≠ [] → remaining.length ≤ fuel →
      ((generate_split_routes_loop dest maxW fuel cur pn tp remaining).map
          (fun p => p.waypoints ++ [p.endPoint])).flatten = remaining ++ [dest] := by
  intro fuel
  induction fuel with
  | zero =>
    intro remaining cur pn tp hne hlen
    exact absurd (List.eq_nil_of_length_eq_zero (Nat.le_zero.mp hlen)) hne
  | succ n ih =>
    rintro (_ | ⟨x, xs⟩) cur pn tp hne hlen
    · exact absurd rfl hne
    · rw [generate_split_routes_loop]
      rcases hrest : (x :: xs).drop maxW with _ | ⟨y, ys⟩
      · have htake : (x :: xs).take maxW = x :: xs :=
          List.take_of_length_le (List.drop_eq_nil_iff.mp hrest)
        rw [if_pos (show (([] : List α)).isEmpty = true from rfl)]
        simp [htake]
      · rw [if_neg (show ¬ ((y :: ys).isEmpty = true) by simp)]
        have hchunk : (x :: xs).take maxW ≠ [] := by
          intro hc
          have := congrArg List.length hc
          simp only [List.length_take, List.length_cons, List.length_nil] at this
          omega
        have hrestlen : (y :: ys).length ≤ n := by
          have := congrArg List.length hrest
          simp only [List.length_drop, List.length_cons] at this hlen ⊢
          omega
        have ihr := ih (y :: ys) ((x :: xs).take maxW).getLast! (pn + 1) tp
          (by simp) hrestlen
        simp only [List.map_cons, List.flatten_cons, ihr]
        rw [dropLast_append_getLastBang _ hchunk, ← List.append_assoc]
        rw [show (x :: xs).take maxW ++ (y :: ys) = x :: xs by
          rw [← hrest]; exact List.take_append_drop maxW (x :: xs)]

theorem generate_split_routes_loop_length {α : Type} [Inhabited α]
    (dest : α) (maxW : Nat) (h1 : 0 < maxW) :
    ∀ (fuel : Nat) (remaining : List α) (cur : α) (pn tp : Nat),
      remaining ≠ [] → remaining.length ≤ fuel →
      (generate_split_routes_loop dest maxW fuel cur pn tp remaining).length =
        (remaining.length + maxW - 1) / maxW := by
  intro fuel
  induction fuel with
  | zero =>
    intro remaining cur pn tp hne hlen
    exact absurd (List.eq_nil_of_length_eq_zero (Nat.le_zero.mp hlen)) hne
  | succ n ih =>
    rintro (_ | ⟨x, xs⟩) cur pn tp hne hlen
    · exact absurd rfl hne
    · rw [generate_split_routes_loop]
      rcases hrest : (x :: xs).drop maxW with _ | ⟨y, ys⟩
      · rw [if_pos (show (([] : List α)).isEmpty = true from rfl), List.length_singleton]
        have hle : (x :: xs).length ≤ maxW := List.drop_eq_nil_iff.mp hrest
        have h1len : 1 ≤ (x :: xs).length := by simp
        rw [show (x :: xs).length + maxW - 1 = ((x :: xs).length - 1) + maxW by
          omega]
        rw [Nat.add_div_right _ h1, Nat.div_eq_of_lt (by omega)]
      · rw [if_neg (show ¬ ((y :: ys).isEmpty = true) by simp)]
        have hgt : maxW < (x :: xs).length := by
          rcases Nat.lt_or_ge maxW (x :: xs).length with h | h
          · exact h
          · rw [List.drop_eq_nil_iff.mpr h] at hrest; cases hrest
        have hrestlen : (y :: ys).length ≤ n := by
          have := congrArg List.length hrest
          simp only [List.length_drop, List.length_cons] at this hlen ⊢
          omega
        have ihr := ih (y :: ys) ((x :: xs).take maxW).getLast! (pn + 1) tp
          (by simp) hrestlen
        rw [List.length_cons, ihr]
        have hyslen : (y :: ys).length = (x :: xs).length - maxW := by
          have := congrArg List.length hrest
          simpa using this.symm
        rw [hyslen]
        rw [show (x :: xs).length - maxW + maxW - 1 = (x :: xs).length - 1 by
          omega]
        rw [show (x :: xs).length + maxW - 1 = ((x :: xs).length - 1) + maxW by
          omega]
        rw [Nat.add_div_right _ h1]

theorem generate_split_routes_loop_head_start {α : Type} [Inhabited α]
    (dest : α) (maxW : Nat) (fuel : Nat) (remaining : List α) (cur : α)
    (pn tp : Nat) (q : RoutePart α)
    (h : (generate_split_routes_loop dest maxW fuel cur pn tp remaining).head? =
      some q) : q.start = cur := by
  match fuel, remaining with
  | _, [] => simp [generate_split_routes_loop] at h
  | 0, _ :: _ => simp [generate_split_routes_loop] at h
  | n + 1, x :: xs =>
    rw [generate_split_routes_loop] at h
    rcases hrest : (x :: xs).drop maxW with _ | ⟨y, ys⟩
    · rw [hrest] at h
      rw [if_pos (show (([] : List α)).isEmpty = true from rfl)] at h
      simp only [List.head?_cons, Option.some.injEq] at h
      rw [← h]
    · rw [hrest] at h
      rw [if_neg (show ¬ ((y :: ys).isEmpty = true) by simp)] at h
      simp only [List.head?_cons, Option.some.injEq] at h
      rw [← h]

theorem generate_split_routes_loop_chain {α : Type} [Inhabited α]
    (dest : α) (maxW : Nat) :
    ∀ (fuel : Nat) (remaining : List α) (cur : α) (pn tp : Nat),
      List.Chain' (fun p q => p.endPoint = q.start)
        (generate_split_routes_loop dest maxW fuel cur pn tp remaining) := by
  intro fuel
  induction fuel with
  | zero =>
    rintro (_ | ⟨x, xs⟩) cur pn tp <;> simp [generate_split_routes_loop]
  | succ n ih =>
    rintro (_ | ⟨x, xs⟩) cur pn tp
    · simp [generate_split_routes_loop]
    · rw [generate_split_routes_loop]
      rcases hrest : (x :: xs).drop maxW with _ | ⟨y, ys⟩
      · rw [if_pos (show (([] : List α)).isEmpty = true from rfl)]; simp
      · rw [if_neg (show ¬ ((y :: ys).isEmpty = true) by simp)]
        rw [List.chain'_cons']
        refine ⟨fun q hq => ?_, ih _ _ _ _⟩
        exact (generate_split_routes_loop_head_start dest maxW n _ _ _ _ q
          (Option.mem_def.mp hq)).symm

theorem generate_split_routes_loop_parts {α : Type} [Inhabited α]
    (dest : α) (maxW : Nat) :
    ∀ (fuel : Nat) (remaining : List α) (cur : α) (pn tp : Nat)
      (p : RoutePart α),
      p ∈ generate_split_routes_loop dest maxW fuel cur pn tp remaining →
      p.waypoints.length ≤ maxW ∧
        p.url = [p.start] ++ p.waypoints ++ [p.endPoint] := by
  intro fuel
  induction fuel with
  | zero =>
    rintro (_ | ⟨x, xs⟩) cur pn tp p hp <;>
      simp [generate_split_routes_loop] at hp
  | succ n ih =>
    rintro (_ | ⟨x, xs⟩) cur pn tp p hp
    · simp [generate_split_routes_loop] at hp
    · rw [generate_split_routes_loop] at hp
      rcases hrest : (x :: xs).drop maxW with _ | ⟨y, ys⟩
      · rw [hrest] at hp
        rw [if_pos (show (([] : List α)).isEmpty = true from rfl)] at hp
        simp only [List.mem_singleton] at hp
        subst hp
        exact ⟨List.length_take_le _ _, rfl⟩
      · rw [hrest] at hp
        rw [if_neg (show ¬ ((y :: ys).isEmpty = true) by simp)] at hp
        simp only [List.mem_cons] at hp
        rcases hp with rfl | hp
        · refine ⟨?_, rfl⟩
          calc ((x :: xs).take maxW).dropLast.length
              ≤ ((x :: xs).take maxW).length := by
                rw [List.length_dropLast]; omega
            _ ≤ maxW := List.length_take_le _ _
        · exact ih _ _ _ _ p hp

/-- C2.  Splitting 20 ordered stops with the default maximum of 8
waypoints per segment yields exactly `ceil(20/8) = 3` segments, each
segment's end coordinate equals the next segment's start coordinate,
and concatenating every segment's intermediate waypoint list followed
by its end point (dropping the final destination) reconstructs the
original ordered stop list exactly. -/
theorem split_routes_twenty_stops {α : Type} [Inhabited α] (o d : α)
    (stops : List α) (h : stops.length = 20) :
    (generate_split_routes o d stops 8).length = 3 ∧
      List.Chain' (fun p q => p.endPoint = q.start)
        (generate_split_routes o d stops 8) ∧
      ((generate_split_routes o d stops 8).map
          (fun p => p.waypoints ++ [p.endPoint])).flatten.dropLast = stops := by
  have hne : stops ≠ [] := by
    intro hc; rw [hc] at h; simp at h
  have hnotle : ¬ stops.length ≤ 8 := by omega
  rw [generate_split_routes]
  simp only []
  rw [if_neg hnotle]
  refine ⟨?_, ?_, ?_⟩
  · rw [generate_split_routes_loop_length d 8 (by norm_num) _ _ _ _ _ hne
      le_rfl, h]
  · exact generate_split_routes_loop_chain d 8 _ _ _ _ _
  · rw [generate_split_routes_loop_flatten d 8 (by norm_num) _ _ _ _ _ hne
      le_rfl, List.dropLast_concat]

/-- C2 witness: the theorem applied to the concrete stop list `0..19`. -/
theorem split_routes_twenty_stops_witness :
    (List.range 20).length = 20 ∧
      ((generate_split_routes (100 : Nat) 200 (List.range 20) 8).length = 3 ∧
        List.Chain' (fun p q => p.endPoint = q.start)
          (generate_split_routes (100 : Nat) 200 (List.range 20) 8) ∧
        ((generate_split_routes (100 : Nat) 200 (List.range 20) 8).map
            (fun p => p.waypoints ++ [p.endPoint])).flatten.dropLast =
          List.range 20) :=
  ⟨by simp, split_routes_twenty_stops 100 200 (List.range 20) (by simp)⟩

/-- C8.  With the default maximum of 8 waypoints per segment, every
segment returned by `generate_split_routes` — in the single-segment
case and in every chunk of a multi-segment split — encodes at most 10
points counting its start, its intermediate waypoints and its end
(Google Maps' point capacity per directions link). -/
theorem split_routes_point_capacity {α : Type} [Inhabited α] (o d : α)
    (stops : List α) (p : RoutePart α)
    (hp : p ∈ generate_split_routes o d stops 8) :
    p.url.length ≤ 10 ∧ 1 + p.waypoints.length + 1 ≤ 10 := by
  rw [generate_split_routes] at hp
  by_cases hle : stops.length ≤ 8
  · rw [if_pos hle] at hp
    simp only [List.mem_singleton] at hp
    subst hp
    constructor
    · show (generate_google_maps_url o d stops).length ≤ 10
      simp only [generate_google_maps_url, List.length_append,
        List.length_singleton]
      omega
    · show 1 + stops.length + 1 ≤ 10
      omega
  · rw [if_neg hle] at hp
    obtain ⟨hw, hurl⟩ := generate_split_routes_loop_parts d 8 _ _ _ _ _ p hp
    constructor
    · rw [hurl]
      simp only [List.length_append, List.length_singleton]
      omega
    · omega

/-- A concrete three-stop part used to witness the capacity bound. -/
def capacityWitnessPart : RoutePart Nat :=
  { url := [0, 1, 2, 3, 9], start := 0, endPoint := 9,
    waypoints := [1, 2, 3], part_number := 1, total_parts := 1 }

/-- C8 witness: the theorem applied to a concrete segment of a
concrete split. -/
theorem split_routes_point_capacity_witness :
    (capacityWitnessPart ∈ generate_split_routes (0 : Nat) 9 [1, 2, 3] 8) ∧
      (capacityWitnessPart.url.length ≤ 10 ∧
        1 + capacityWitnessPart.waypoints.length + 1 ≤ 10) :=
  ⟨by decide, split_routes_point_capacity 0 9 [1, 2, 3] _ (by decide)⟩

/-! ## Map-link coordinate extraction

`app.py` and `route_optimizer.py` share an identical
`extract_coords_from_url`; `sheets.py` has the stricter
`extract_coords_from_maps_link`.  Both scan a fixed sequence of
regular-expression patterns over the URL text.  The patterns are
embedded below with Python `re.search` semantics: the scan tries every
start position from the left, and at each position the alternatives of
the numeric token `-?\d+\.?\d*` are tried in the greedy backtracking
order of the Python engine. -/

/-- Python `str.strip()` whitespace (the ASCII subset; the URLs and
cell values handled by this program are ASCII). -/
def pyIsSpace (c : Char) : Bool :=
  c == ' ' || c == '\t' || c == '\n' || c == '\r' || c == '\x0b' || c == '\x0c'

/-- Python `str.strip()`. -/
def pyStrip (s : List Char) : List Char :=
  ((s.dropWhile pyIsSpace).reverse.dropWhile pyIsSpace).reverse

/-- `str.strip()` on Lean strings. -/
def pyStripStr (s : String) : String := String.mk (pyStrip s.toList)

/-- All ways `\d*` can match a prefix of `s`, as (matched, rest) pairs
in greedy order (longest first). -/
def digitSplits (s : List Char) : List (List Char × List Char) :=
  let n := (s.takeWhile (·.isDigit)).length
  (List.range (n + 1)).reverse.map fun k => (s.take k, s.drop k)

/-- All ways `\s*` can match a prefix of `s`, in greedy order. -/
def wsSplits (s : List Char) : List (List Char × List Char) :=
  let n := (s.takeWhile pyIsSpace).length
  (List.range (n + 1)).reverse.map fun k => (s.take k, s.drop k)

/-- All ways the numeric token `-?\d+\.?\d*` can match a prefix of
`s`, as (matched characters, rest) pairs, in the backtracking
preference order of `re` (each quantifier greedy, longer first). -/
def numTokenMatches (s : List Char) : List (List Char × List Char) :=
  let signOpts : List (List Char × List Char) :=
    match s with
    | '-' :: s1 => [(['-'], s1), ([], s)]
    | _ => [([], s)]
  signOpts.flatMap fun sg =>
    ((digitSplits sg.2).filter (fun d => !d.1.isEmpty)).flatMap fun d1 =>
      let dotOpts : List (List Char × List Char) :=
        match d1.2 with
        | '.' :: s3 => [(['.'], s3), ([], d1.2)]
        | _ => [([], d1.2)]
      dotOpts.flatMap fun dt =>
        (digitSplits dt.2).map fun d2 =>
          (sg.1 ++ d1.1 ++ dt.1 ++ d2.1, d2.2)

/-- `re.search`: try the pattern at every start position, leftmost
match wins. -/
def reSearch {β : Type} (matchAt : List Char → Option β) :
    List Char → Option β
  | [] => matchAt []
  | s@(_ :: rest) =>
    match matchAt s with
    | some r => some r
    | none => reSearch matchAt rest

/-- `tag(-?\d+\.?\d*)` anchored at the start of `s` (used for the
independent `!3d(...)` and `!4d(...)` searches of `app.py`). -/
def matchTagNumAt (tag : List Char) (s : List Char) : Option (List Char) :=
  if tag.isPrefixOf s then
    match numTokenMatches (s.drop tag.length) with
    | [] => none
    | c :: _ => some c.1
  else none

/-- `(-?\d+\.?\d*),(-?\d+\.?\d*)` anchored at the start of `s`, with
backtracking over the first token. -/
def numCommaNumAt (s : List Char) : Option (List Char × List Char) :=
  (numTokenMatches s).findSome? fun c1 =>
    match c1.2 with
    | ',' :: r2 =>
      match numTokenMatches r2 with
      | [] => none
      | c2 :: _ => some (c1.1, c2.1)
    | _ => none

/-- `(-?\d+\.?\d*),\s*(-?\d+\.?\d*)` anchored at the start of `s`
(pattern 3 of `extract_coords_from_url`, searched inside the `q`
parameter value). -/
def numCommaWsNumAt (s : List Char) : Option (List Char × List Char) :=
  (numTokenMatches s).findSome? fun c1 =>
    match c1.2 with
    | ',' :: r2 =>
      (wsSplits r2).findSome? fun w =>
        match numTokenMatches w.2 with
        | [] => none
        | c2 :: _ => some (c1.1, c2.1)
    | _ => none

/-- `@(-?\d+\.?\d*),(-?\d+\.?\d*)` anchored at the start of `s`
(viewport-centre pattern). -/
def matchAtSignPairAt : List Char → Option (List Char × List Char)
  | '@' :: s1 => numCommaNumAt s1
  | _ => none

/-- `/(-?\d+\.?\d*),(-?\d+\.?\d*)` anchored at the start of `s`
(pattern 4, searched in the URL path). -/
def matchSlashPairAt : List Char → Option (List Char × List Char)
  | '/' :: s1 => numCommaNumAt s1
  | _ => none

def bang3d : List Char := ['!', '3', 'd']
def bang4d : List Char := ['!', '4', 'd']

/-- `!3d(-?\d+\.?\d*)!4d(-?\d+\.?\d*)` anchored at the start of `s`
(the adjacent place-marker pair of `sheets.py`). -/
def matchPlacePairAt (s : List Char) : Option (List Char × List Char) :=
  if bang3d.isPrefixOf s then
    (numTokenMatches (s.drop 3)).findSome? fun c1 =>
      if bang4d.isPrefixOf c1.2 then
        match numTokenMatches (c1.2.drop 3) with
        | [] => none
        | c2 :: _ => some (c1.1, c2.1)
      else none
  else none

/-- `[?&]q=(-?\d+\.?\d*),(-?\d+\.?\d*)` anchored at the start of `s`
(the query-parameter pattern of `sheets.py`). -/
def matchQParamPairAt : List Char → Option (List Char × List Char)
  | c :: 'q' :: '=' :: s1 =>
    if c == '?' || c == '&' then numCommaNumAt s1 else none
  | _ => none

/-- Numeric value of a digit run. -/
def digitsToNat (ds : List Char) : Nat :=
  ds.foldl (fun n c => 10 * n + (c.toNat - '0'.toNat)) 0

/-- Exact value of an unsigned decimal token `\d+\.?\d*`. -/
def decMagnitude (t : List Char) : ℚ :=
  let ip := t.takeWhile (·.isDigit)
  let frac :=
    match t.drop ip.length with
    | '.' :: f => f
    | _ => []
  (digitsToNat ip : ℚ) + (digitsToNat frac : ℚ) / (10 : ℚ) ^ frac.length

/-- Exact value of a signed decimal token `-?\d+\.?\d*` (Python
`float(...)` of a regex capture, idealized to the exact rational). -/
def decTokenToRat : List Char → ℚ
  | '-' :: t => -decMagnitude t
  | t => decMagnitude t

/-- A Python float value as this program observes it: a finite decimal
(modelled exactly), an infinity, or NaN. -/
inductive PyFloat
  | finite (q : ℚ)
  | inf (neg : Bool)
  | nan
deriving DecidableEq

/-- `float(...)` of a captured coordinate token. -/
def floatOfToken (t : List Char) : PyFloat := .finite (decTokenToRat t)

/-- ASCII lowercase. -/
def asciiLower (c : Char) : Char :=
  if 'A' ≤ c ∧ c ≤ 'Z' then Char.ofNat (c.toNat + 32) else c

def lowerEq (s t : List Char) : Bool := s.map asciiLower == t

/-- The number forms accepted by Python `float()` after sign removal:
digits with optional decimal point (at least one digit overall) and an
optional exponent; the whole input must be consumed.  Underscore digit
grouping is not modelled. -/
def parseDecimalLit (t : List Char) : Option ℚ :=
  let ip := t.takeWhile (·.isDigit)
  let rest1 := t.drop ip.length
  let hasDot : Bool := match rest1 with | '.' :: _ => true | _ => false
  let afterDot := rest1.drop 1
  let fr := if hasDot then afterDot.takeWhile (·.isDigit) else []
  let rest2 := if hasDot then afterDot.drop fr.length else rest1
  if ip.length + fr.length == 0 then none
  else
    let mant : ℚ :=
      (digitsToNat ip : ℚ) + (digitsToNat fr : ℚ) / (10 : ℚ) ^ fr.length
    match rest2 with
    | [] => some mant
    | e :: r3 =>
      if e == 'e' || e == 'E' then
        let signed : ℤ × List Char :=
          match r3 with
          | '-' :: r => (-1, r)
          | '+' :: r => (1, r)
          | _ => (1, r3)
        let eds := signed.2.takeWhile (·.isDigit)
        if eds.isEmpty || !(signed.2.drop eds.length).isEmpty then none
        else some (mant * (10 : ℚ) ^ (signed.1 * (digitsToNat eds : ℤ)))
      else none

/-- Python `float(s)` on an arbitrary string: strips whitespace, takes
an optional sign, accepts `inf`/`infinity`/`nan` case-insensitively or
a decimal literal; `none` models the `ValueError` raise. -/
def pyFloat? (s : List Char) : Option PyFloat :=
  let t := pyStrip s
  let signed : Bool × List Char :=
    match t with
    | '-' :: r => (true, r)
    | '+' :: r => (false, r)
    | _ => (false, t)
  if signed.2.isEmpty then none
  else if lowerEq signed.2 "inf".toList || lowerEq signed.2 "infinity".toList then
    some (.inf signed.1)
  else if lowerEq signed.2 "nan".toList then some .nan
  else (parseDecimalLit signed.2).map fun q =>
    .finite (if signed.1 then -q else q)

/-! ### `urllib.parse` model -/

/-- The components of `urlparse` that the source reads. -/
structure PyUrl where
  path : List Char
  query : List Char
deriving DecidableEq

def schemeChar (c : Char) : Bool :=
  c.isAlpha || c.isDigit || c == '+' || c == '-' || c == '.'

/-- Models `urllib.parse.urlparse` to the extent the source reads it:
a well-formed `scheme:` head and a `//netloc` component are stripped,
the fragment is cut at the first `#`, the query is the part after the
first `?` of what remains, and the path is what is left. -/
def pyUrlparse (url : List Char) : PyUrl :=
  let afterScheme :=
    match url.findIdx? (· == ':'), url with
    | some i, c :: _ =>
      if 0 < i ∧ c.isAlpha ∧ ((url.take i).drop 1).all schemeChar then
        url.drop (i + 1)
      else url
    | _, _ => url
  let afterNetloc :=
    match afterScheme with
    | '/' :: '/' :: r =>
      r.dropWhile (fun c => !(c == '/' || c == '?' || c == '#'))
    | _ => afterScheme
  let beforeFrag := afterNetloc.takeWhile (· != '#')
  let path := beforeFrag.takeWhile (· != '?')
  if path.length = beforeFrag.length then { path := path, query := [] }
  else { path := path, query := beforeFrag.drop (path.length + 1) }

/-- Python `str.split(sep)` (all occurrences). -/
def pySplitOn (sep : Char) : List Char → List (List Char)
  | [] => [[]]
  | c :: r =>
    if c == sep then [] :: pySplitOn sep r
    else
      match pySplitOn sep r with
      | [] => [[c]]
      | g :: gs => (c :: g) :: gs

def hexVal? (c : Char) : Option Nat :=
  if c.isDigit then some (c.toNat - '0'.toNat)
  else if 'a' ≤ c ∧ c ≤ 'f' then some (c.toNat - 'a'.toNat + 10)
  else if 'A' ≤ c ∧ c ≤ 'F' then some (c.toNat - 'A'.toNat + 10)
  else none

/-- Percent-decoding at the byte level (multi-byte UTF-8 sequences are
not recombined; the coordinate text this program reads is ASCII).
Invalid escapes are kept verbatim, as in `urllib.parse.unquote`. -/
def pyUnquote : List Char → List Char
  | [] => []
  | '%' :: a :: b :: r =>
    match hexVal? a, hexVal? b with
    | some ha, some hb => Char.ofNat (16 * ha + hb) :: pyUnquote r
    | _, _ => '%' :: pyUnquote (a :: b :: r)
  | c :: r => c :: pyUnquote r

def plusToSpace (s : List Char) : List Char :=
  s.map fun c => if c == '+' then ' ' else c

/-- Models `urllib.parse.parse_qs` applied to the query component: the
query is split on `&`; pieces without `=` or with an empty value are
skipped (`keep_blank_values` is false); `+` becomes a space and
percent escapes are decoded in names and values.  The association
list keeps the pairs in order; the dictionary `parse_qs` builds from
it is only ever read through its first value per key. -/
def parse_qsl (query : List Char) : List (List Char × List Char) :=
  (pySplitOn '&' query).filterMap fun nv =>
    if nv.isEmpty then none
    else
      let name := nv.takeWhile (· != '=')
      if name.length = nv.length then none
      else
        let value := nv.drop (name.length + 1)
        if value.isEmpty then none
        else some (pyUnquote (plusToSpace name), pyUnquote (plusToSpace value))

/-- `query_params[key][0]`: the first value listed for `key`
(`parse_qs` groups values per key in order of appearance), or `none`
when `key not in query_params`. -/
def qsFirst (params : List (List Char × List Char)) (key : List Char) :
    Option (List Char) :=
  (params.find? (fun p => p.1 == key)).map (·.2)

/-! ### `extract_coords_from_url` (`app.py` / `route_optimizer.py`) -/

/-- Result of `extract_coords_from_url`: a coordinate pair, `None`, or
an escaping `ValueError` from `float()` on a malformed `ll`
parameter. -/
inductive ExtractResult
  | ok (coords : Option (PyFloat × PyFloat))
  | valueError
deriving DecidableEq

/-- Pattern 1a: `re.search(r'!3d(-?\d+\.?\d*)', url)`. -/
def placeLatSearch (url : List Char) : Option (List Char) :=
  reSearch (matchTagNumAt bang3d) url

/-- Pattern 1b: `re.search(r'!4d(-?\d+\.?\d*)', url)`. -/
def placeLngSearch (url : List Char) : Option (List Char) :=
  reSearch (matchTagNumAt bang4d) url

def qKey : List Char := ['q']
def llKey : List Char := ['l', 'l']

/-- Pattern 5: the legacy `ll` parameter, split on `,`; exactly two
parts are converted with `float()` (which may raise). -/
def extractStep5 (params : List (List Char × List Char)) : ExtractResult :=
  match qsFirst params llKey with
  | some lv =>
    match pySplitOn ',' lv with
    | [p1, p2] =>
      match pyFloat? p1, pyFloat? p2 with
      | some a, some b => .ok (some (a, b))
      | _, _ => .valueError
    | _ => .ok none
  | none => .ok none

/-- Pattern 4: a `lat,lng` pair in the URL path. -/
def extractStep4 (parsed : PyUrl) (params : List (List Char × List Char)) :
    ExtractResult :=
  match reSearch matchSlashPairAt parsed.path with
  | some c => .ok (some (floatOfToken c.1, floatOfToken c.2))
  | none => extractStep5 params

/-- Pattern 3: a `lat,lng` pair inside the first `q` parameter
value. -/
def extractStep3 (parsed : PyUrl) (params : List (List Char × List Char)) :
    ExtractResult :=
  match qsFirst params qKey with
  | some qv =>
    match reSearch numCommaWsNumAt qv with
    | some c => .ok (some (floatOfToken c.1, floatOfToken c.2))
    | none => extractStep4 parsed params
  | none => extractStep4 parsed params

/-- The pattern scan of `extract_coords_from_url` on the final
(post-redirect) URL text: place-marker pair, then viewport centre,
then `q` parameter, then path pair, then legacy `ll` parameter. -/
def extract_coords_patterns (url : List Char) : ExtractResult :=
  match placeLatSearch url, placeLngSearch url with
  | some la, some ln => .ok (some (floatOfToken la, floatOfToken ln))
  | _, _ =>
    match reSearch matchAtSignPairAt url with
    | some c => .ok (some (floatOfToken c.1, floatOfToken c.2))
    | none =>
      let parsed := pyUrlparse url
      extractStep3 parsed (parse_qsl parsed.query)

/-- `"goo.gl" in url` / `"maps.app" in url`. -/
def containsSub (needle : List Char) : List Char → Bool
  | [] => needle.isEmpty
  | s@(_ :: r) => needle.isPrefixOf s || containsSub needle r

/-- `extract_coords_from_url(url)` from `app.py`: strip the text;
URLs naming a known shortener host are first resolved through the
redirect oracle (one bounded network round trip in the source), and a
failed resolution returns no coordinates; then the patterns are
scanned in priority order. -/
def extract_coords_from_url (resolveShort : List Char → Option (List Char))
    (url : List Char) : ExtractResult :=
  let url := pyStrip url
  if containsSub "goo.gl".toList url || containsSub "maps.app".toList url then
    match resolveShort url with
    | some resolved => extract_coords_patterns resolved
    | none => .ok none
  else extract_coords_patterns url

/-- `extract_coords_from_maps_link(url)` from `sheets.py` with the
default `expand=False` (the call sites modelled in this development
never request expansion): adjacent `!3d...!4d...` pair, then viewport
centre, then `[?&]q=lat,lng`. -/
def extract_coords_from_maps_link (url : List Char) :
    Option ℚ × Option ℚ :=
  if url.isEmpty then (none, none)
  else
    let url := pyStrip url
    match reSearch matchPlacePairAt url with
    | some c => (some (decTokenToRat c.1), some (decTokenToRat c.2))
    | none =>
      match reSearch matchAtSignPairAt url with
      | some c => (some (decTokenToRat c.1), some (decTokenToRat c.2))
      | none =>
        match reSearch matchQParamPairAt url with
        | some c => (some (decTokenToRat c.1), some (decTokenToRat c.2))
        | none => (none, none)

/-! ### C3: the pattern priority order -/

/-- The text that `extract_coords_from_url` actually scans: the
stripped input, passed through the redirect oracle when it names a
shortener host (`none` models a failed resolution, which the source
turns into a `None` result before any pattern is tried). -/
def extractScanText (resolveShort : List Char → Option (List Char))
    (url : List Char) : Option (List Char) :=
  let s := pyStrip url
  if containsSub "goo.gl".toList s || containsSub "maps.app".toList s then
    resolveShort s
  else some s

theorem extract_eq_patterns (resolveShort : List Char → Option (List Char))
    (url u : List Char) (hscan : extractScanText resolveShort url = some u) :
    extract_coords_from_url resolveShort url = extract_coords_patterns u := by
  simp only [extractScanText] at hscan
  simp only [extract_coords_from_url]
  by_cases hb : (containsSub "goo.gl".toList (pyStrip url) ||
      containsSub "maps.app".toList (pyStrip url)) = true
  · rw [if_pos hb] at hscan ⊢
    rw [hscan]
  · rw [if_neg hb] at hscan ⊢
    exact congrArg extract_coords_patterns (Option.some.injEq _ _ ▸ hscan)

/-- C3.  `extract_coords_from_url` scans the coordinate patterns of
the (post-redirect) URL text in the fixed priority order — place
marker pair (`!3d`/`!4d`), viewport centre (`@lat,lng`), `q` query
parameter, `lat,lng` in the path, then legacy `ll` parameter — and
returns the first pattern that matches; in particular, when the text
contains both a place-marker pair and a viewport-centre pair, the
place-marker coordinates are returned. -/
theorem extract_priority_order (resolveShort : List Char → Option (List Char))
    (url u : List Char) (hscan : extractScanText resolveShort url = some u) :
    (∀ la ln, placeLatSearch u = some la → placeLngSearch u = some ln →
      extract_coords_from_url resolveShort url =
        .ok (some (floatOfToken la, floatOfToken ln))) ∧
    (∀ la ln c, placeLatSearch u = some la → placeLngSearch u = some ln →
      reSearch matchAtSignPairAt u = some c →
      extract_coords_from_url resolveShort url =
        .ok (some (floatOfToken la, floatOfToken ln))) ∧
    ((placeLatSearch u = none ∨ placeLngSearch u = none) →
      ∀ c, reSearch matchAtSignPairAt u = some c →
      extract_coords_from_url resolveShort url =
        .ok (some (floatOfToken c.1, floatOfToken c.2))) ∧
    ((placeLatSearch u = none ∨ placeLngSearch u = none) →
      reSearch matchAtSignPairAt u = none →
      ∀ qv c, qsFirst (parse_qsl (pyUrlparse u).query) qKey = some qv →
        reSearch numCommaWsNumAt qv = some c →
        extract_coords_from_url resolveShort url =
          .ok (some (floatOfToken c.1, floatOfToken c.2))) ∧
    ((placeLatSearch u = none ∨ placeLngSearch u = none) →
      reSearch matchAtSignPairAt u = none →
      (∀ qv, qsFirst (parse_qsl (pyUrlparse u).query) qKey = some qv →
        reSearch numCommaWsNumAt qv = none) →
      ∀ c, reSearch matchSlashPairAt (pyUrlparse u).path = some c →
        extract_coords_from_url resolveShort url =
          .ok (some (floatOfToken c.1, floatOfToken c.2))) ∧
    ((placeLatSearch u = none ∨ placeLngSearch u = none) →
      reSearch matchAtSignPairAt u = none →
      (∀ qv, qsFirst (parse_qsl (pyUrlparse u).query) qKey = some qv →
        reSearch numCommaWsNumAt qv = none) →
      reSearch matchSlashPairAt (pyUrlparse u).path = none →
      extract_coords_from_url resolveShort url =
        extractStep5 (parse_qsl (pyUrlparse u).query)) := by
  rw [extract_eq_patterns resolveShort url u hscan]
  refine ⟨?_, ?_, ?_, ?_, ?_, ?_⟩
  · intro la ln h3 h4
    simp only [extract_coords_patterns, h3, h4]
  · intro la ln c h3 h4 _
    simp only [extract_coords_patterns, h3, h4]
  · intro hp c hat
    rcases h1 : placeLatSearch u with _ | la <;>
      rcases h2 : placeLngSearch u with _ | ln <;>
      simp only [extract_coords_patterns, h1, h2, hat]
    rcases hp with hp | hp
    · rw [h1] at hp; cases hp
    · rw [h2] at hp; cases hp
  · intro hp hat qv c hq hqc
    rcases h1 : placeLatSearch u with _ | la <;>
      rcases h2 : placeLngSearch u with _ | ln <;>
      simp only [extract_coords_patterns, h1, h2, hat, extractStep3, hq, hqc]
    rcases hp with hp | hp
    · rw [h1] at hp; cases hp
    · rw [h2] at hp; cases hp
  · intro hp hat hq c hpath
    have hstep3 : extractStep3 (pyUrlparse u) (parse_qsl (pyUrlparse u).query) =
        .ok (some (floatOfToken c.1, floatOfToken c.2)) := by
      rcases hqv : qsFirst (parse_qsl (pyUrlparse u).query) qKey with _ | qv
      · simp only [extractStep3, hqv, extractStep4, hpath]
      · simp only [extractStep3, hqv, hq qv hqv, extractStep4, hpath]
    rcases h1 : placeLatSearch u with _ | la <;>
      rcases h2 : placeLngSearch u with _ | ln <;>
      simp only [extract_coords_patterns, h1, h2, hat, hstep3]
    rcases hp with hp | hp
    · rw [h1] at hp; cases hp
    · rw [h2] at hp; cases hp
  · intro hp hat hq hpath
    have hstep3 : extractStep3 (pyUrlparse u) (parse_qsl (pyUrlparse u).query) =
        extractStep5 (parse_qsl (pyUrlparse u).query) := by
      rcases hqv : qsFirst (parse_qsl (pyUrlparse u).query) qKey with _ | qv
      · simp only [extractStep3, hqv, extractStep4, hpath]
      · simp only [extractStep3, hqv, hq qv hqv, extractStep4, hpath]
    rcases h1 : placeLatSearch u with _ | la <;>
      rcases h2 : placeLngSearch u with _ | ln <;>
      simp only [extract_coords_patterns, h1, h2, hat, hstep3]
    rcases hp with hp | hp
    · rw [h1] at hp; cases hp
    · rw [h2] at hp; cases hp

/-- C3 witness: a URL carrying both a place-marker pair and a
viewport-centre pair resolves to the place-marker coordinates. -/
theorem extract_priority_order_witness :
    extractScanText (fun _ => none) "@-1.5,2!3d3!4d-4.25".toList =
        some "@-1.5,2!3d3!4d-4.25".toList ∧
      extract_coords_from_url (fun _ => none) "@-1.5,2!3d3!4d-4.25".toList =
        .ok (some (floatOfToken ['3'], floatOfToken ['-', '4', '.', '2', '5'])) :=
  ⟨by decide,
    (extract_priority_order (fun _ => none) "@-1.5,2!3d3!4d-4.25".toList
      "@-1.5,2!3d3!4d-4.25".toList (by decide)).1
      ['3'] ['-', '4', '.', '2', '5'] (by decide) (by decide)⟩

/-! ## The verified store (`sheets.py`)

One data row of the Google Sheet per client; row 1 is the header, so
data row `i` of the list below is sheet row `i + 2`.  Cells are
modelled as the strings stored in the sheet. -/

structure SheetRecord where
  bsale_id : String
  name : String
  company : String
  phone : String
  address : String
  clean_address : String
  district : String
  verified_district : String
  city : String
  maps_link : String
  lat : String
  lng : String
  verified : String
  last_updated : String
deriving DecidableEq, Inhabited

def SHEET_COLUMNS : List String :=
  ["bsale_id", "name", "company", "phone", "address", "clean_address",
   "district", "verified_district", "city", "maps_link", "lat", "lng",
   "verified", "last_updated"]

/-- `record.get(field, "")` on a row dictionary. -/
def recordField (r : SheetRecord) (field : String) : String :=
  if field = "bsale_id" then r.bsale_id
  else if field = "name" then r.name
  else if field = "company" then r.company
  else if field = "phone" then r.phone
  else if field = "address" then r.address
  else if field = "clean_address" then r.clean_address
  else if field = "district" then r.district
  else if field = "verified_district" then r.verified_district
  else if field = "city" then r.city
  else if field = "maps_link" then r.maps_link
  else if field = "lat" then r.lat
  else if field = "lng" then r.lng
  else if field = "verified" then r.verified
  else if field = "last_updated" then r.last_updated
  else ""

/-- Write one cell of a row, addressed by its 1-based column number
(the order of `SHEET_COLUMNS`).  Out-of-range columns never arise at
the modelled call sites. -/
def setCol (r : SheetRecord) (col : Nat) (v : String) : SheetRecord :=
  if col = 1 then { r with bsale_id := v }
  else if col = 2 then { r with name := v }
  else if col = 3 then { r with company := v }
  else if col = 4 then { r with phone := v }
  else if col = 5 then { r with address := v }
  else if col = 6 then { r with clean_address := v }
  else if col = 7 then { r with district := v }
  else if col = 8 then { r with verified_district := v }
  else if col = 9 then { r with city := v }
  else if col = 10 then { r with maps_link := v }
  else if col = 11 then { r with lat := v }
  else if col = 12 then { r with lng := v }
  else if col = 13 then { r with verified := v }
  else if col = 14 then { r with last_updated := v }
  else r

/-- `column_map[field]` (1-based; the call sites guard membership). -/
def colNumOf (field : String) : Nat :=
  match SHEET_COLUMNS.indexOf? field with
  | some i => i + 1
  | none => 0

/-- In-place update of the element at an index (identity when the
index is out of range). -/
def modifyAt {β : Type} (f : β → β) : Nat → List β → List β
  | _, [] => []
  | 0, x :: xs => f x :: xs
  | n + 1, x :: xs => x :: modifyAt f n xs

/-- `worksheet.update_cell(row, col, value)` (`row ≥ 2` targets data
row `row - 2`). -/
def update_cell (store : List SheetRecord) (row col : Nat) (value : String) :
    List SheetRecord :=
  modifyAt (fun r => setCol r col value) (row - 2) store

/-- A client dictionary in the reconciliation flow (the shape built by
`fetch_all_bsale_clients`, enriched with `maps_link` during the
geocoding phase).  `bsale_id` holds the string form `str(...)` used at
every comparison and storage site; a client lacking the key (or with
an empty value) is modelled by the empty string. -/
structure SyncClient where
  bsale_id : String
  firstName : String
  lastName : String
  company : String
  phone : String
  address : String
  city : String
  district : String
  maps_link : String
deriving DecidableEq, Inhabited

/-- `find_client_row`: first row whose identifier cell equals the id
(sheet rows start at 2 for data). -/
def find_client_row (store : List SheetRecord) (id : String) : Option Nat :=
  (store.findIdx? (fun r => r.bsale_id == id)).map (· + 2)

def allowed_fields : List String :=
  ["name", "company", "phone", "address", "district", "city"]

/-- `update_client_details(bsale_id, details)` from `sheets.py`:
writes only the allowed descriptive fields of the client's row, one
`update_cell` per present field, and reports whether any cell was
written.  Detail values are modelled post-`str()`. -/
def update_client_details (store : List SheetRecord) (bsale_id : String)
    (details : List (String × String)) : List SheetRecord × Bool :=
  match find_client_row store bsale_id with
  | none => (store, false)
  | some row =>
    details.foldl
      (fun acc fv =>
        if fv.1 ∈ allowed_fields ∧ (SHEET_COLUMNS.indexOf? fv.1).isSome then
          (update_cell acc.1 row (colNumOf fv.1) fv.2, true)
        else acc)
      (store, false)

/-- One entry of `cells_to_update`: the source encodes the target cell
as the A1 range string `chr(64 + col_num) + str(row_num)`; the model
keeps the column letter and the row number. -/
structure A1CellUpdate where
  colLetter : Char
  row : Nat
  value : String
deriving DecidableEq

/-- The `existing_map` lookup of `batch_update_client_details`: data
rows keyed by non-empty identifier (a later duplicate overwrites an
earlier one), valued at (sheet row, row data). -/
def existingEntry (store : List SheetRecord) (id : String) :
    Option (Nat × SheetRecord) :=
  if id = "" then none
  else
    ((store.enum.filter (fun p => p.2.bsale_id == id)).getLast?).map
      (fun p => (p.1 + 2, p.2))

/-- The `field_values` dictionary compared for one client. -/
def batch_update_fields (c : SyncClient) : List (String × String) :=
  [("name", pyStripStr (c.firstName ++ " " ++ c.lastName)),
   ("company", c.company),
   ("phone", c.phone),
   ("address", c.address),
   ("district", c.district),
   ("city", c.city)]

/-- The cell writes one client contributes: a cell per compared field
whose new value differs from the stored cell. -/
def clientCellUpdates (rec : SheetRecord) (row : Nat) (c : SyncClient) :
    List A1CellUpdate :=
  (batch_update_fields c).filterMap fun fv =>
    if fv.2 ≠ recordField rec fv.1 then
      some { colLetter := Char.ofNat (64 + colNumOf fv.1), row := row,
             value := fv.2 }
    else none

/-- The collection loop of `batch_update_client_details`: walk the
clients in order, skip ids not in the store, gather cell writes and
count clients with at least one change. -/
def batch_update_collect (store : List SheetRecord) :
    List SyncClient → List A1CellUpdate × Nat
  | [] => ([], 0)
  | c :: cs =>
    match existingEntry store c.bsale_id with
    | none => batch_update_collect store cs
    | some (row, rec) =>
      if (clientCellUpdates rec row c).isEmpty then batch_update_collect store cs
      else (clientCellUpdates rec row c ++ (batch_update_collect store cs).1,
            (batch_update_collect store cs).2 + 1)

/-- `worksheet.batch_update(cells)`: apply the cell writes in order;
the A1 column letter decodes back to the 1-based column number. -/
def applyA1Updates (store : List SheetRecord) :
    List A1CellUpdate → List SheetRecord
  | [] => store
  | u :: us =>
    applyA1Updates (update_cell store u.row (u.colLetter.toNat - 64) u.value) us

/-- `batch_update_client_details(clients)` from `sheets.py`: compare
each known client's descriptive fields against the stored row, write
the differing cells in one batch and return the number of clients
with changes (the write is skipped entirely when nothing changed). -/
def batch_update_client_details (store : List SheetRecord)
    (clients : List SyncClient) : List SheetRecord × Nat :=
  let collected := batch_update_collect store clients
  if collected.1.isEmpty then (store, 0)
  else (applyA1Updates store collected.1, collected.2)

/-! ### `add_clients` -/

/-- Fraction digits of `r/d` (`r < d`) by long division, stopping at
remainder zero; the fuel bounds the digit count. -/
def fracDigits : Nat → Nat → Nat → List Char
  | 0, _, _ => []
  | _ + 1, 0, _ => []
  | fuel + 1, r, d =>
    Char.ofNat ('0'.toNat + r * 10 / d) :: fracDigits fuel (r * 10 % d) d

/-- Models Python `str()` of a float cell value by the exact decimal
rendering of the rational (with a trailing `.0` when the fraction is
empty, as `str(float)` always prints a decimal point). -/
def ratRepr (q : ℚ) : String :=
  let n := q.num.natAbs
  let d := q.den
  let fr := fracDigits 64 (n % d) d
  (if q < 0 then "-" else "") ++ toString (n / d) ++ "." ++
    (if fr.isEmpty then "0" else String.mk fr)

/-- `str(x) if x else ""` for an extracted coordinate (`None` and
`0.0` are both falsy). -/
def pyFloatCell : Option ℚ → String
  | none => ""
  | some q => if q = 0 then "" else ratRepr q

/-- The 14-cell row `add_clients` builds for one new client: name
assembled from first/last name, empty user-editable and verification
fields, coordinates extracted from the (possibly empty) maps link. -/
def add_clients_row (c : SyncClient) (now : String) : SheetRecord :=
  let coords := extract_coords_from_maps_link c.maps_link.toList
  { bsale_id := c.bsale_id,
    name := pyStripStr (c.firstName ++ " " ++ c.lastName),
    company := c.company,
    phone := c.phone,
    address := c.address,
    clean_address := "",
    district := c.district,
    verified_district := "",
    city := c.city,
    maps_link := c.maps_link,
    lat := pyFloatCell coords.1,
    lng := pyFloatCell coords.2,
    verified := "",
    last_updated := now }

/-- The client walk of `add_clients`: a client whose id is in the
pre-read identifier set is skipped; every other client contributes a
row.  The identifier set is not extended during the walk. -/
def add_clients_loop (existing_ids : List String) (now : String) :
    List SyncClient → List SheetRecord × Nat
  | [] => ([], 0)
  | c :: cs =>
    if c.bsale_id ∈ existing_ids then add_clients_loop existing_ids now cs
    else (add_clients_row c now :: (add_clients_loop existing_ids now cs).1,
          (add_clients_loop existing_ids now cs).2 + 1)

/-- `add_clients(clients)` from `sheets.py`: read the identifier
column (header skipped, falsy cells dropped), skip clients already
present, append all new rows in one batch, return the number added. -/
def add_clients (store : List SheetRecord) (clients : List SyncClient)
    (now : String) : List SheetRecord × Nat :=
  let existing_ids := (store.map (·.bsale_id)).filter (· ≠ "")
  let added := add_clients_loop existing_ids now clients
  (store ++ added.1, added.2)

/-! ### C1: reconciliation updates never touch verification data -/

/-- The verification-sensitive cells of a row: verified flag, maps
link, coordinates, and the user-edited formatted address. -/
def frameC1 (r : SheetRecord) : String × String × String × String × String :=
  (r.verified, r.maps_link, r.lat, r.lng, r.clean_address)

theorem setCol_frame (r : SheetRecord) (col : Nat) (v : String)
    (h : col = 2 ∨ col = 3 ∨ col = 4 ∨ col = 5 ∨ col = 7 ∨ col = 9) :
    frameC1 (setCol r col v) = frameC1 r := by
  rcases h with rfl | rfl | rfl | rfl | rfl | rfl <;> rfl

theorem modifyAt_map_frame (g : SheetRecord → SheetRecord)
    (hg : ∀ r, frameC1 (g r) = frameC1 r) :
    ∀ (n : Nat) (l : List SheetRecord),
      (modifyAt g n l).map frameC1 = l.map frameC1 := by
  intro n l
  induction l generalizing n with
  | nil => cases n <;> rfl
  | cons x xs ih =>
    cases n with
    | zero => simp [modifyAt, hg]
    | succ m => simp [modifyAt, ih]

theorem update_cell_frame (store : List SheetRecord) (row col : Nat)
    (v : String)
    (h : col = 2 ∨ col = 3 ∨ col = 4 ∨ col = 5 ∨ col = 7 ∨ col = 9) :
    (update_cell store row col v).map frameC1 = store.map frameC1 :=
  modifyAt_map_frame _ (fun r => setCol_frame r col v h) _ _

theorem colNumOf_allowed (f : String) (hf : f ∈ allowed_fields) :
    colNumOf f = 2 ∨ colNumOf f = 3 ∨ colNumOf f = 4 ∨ colNumOf f = 5 ∨
      colNumOf f = 7 ∨ colNumOf f = 9 := by
  simp only [allowed_fields, List.mem_cons, List.not_mem_nil, or_false] at hf
  rcases hf with rfl | rfl | rfl | rfl | rfl | rfl <;> decide

theorem update_details_foldl_frame (row : Nat) :
    ∀ (ds : List (String × String)) (acc : List SheetRecord × Bool),
      ((ds.foldl
        (fun acc fv =>
          if fv.1 ∈ allowed_fields ∧ (SHEET_COLUMNS.indexOf? fv.1).isSome then
            (update_cell acc.1 row (colNumOf fv.1) fv.2, true)
          else acc)
        acc).1).map frameC1 = acc.1.map frameC1 := by
  intro ds
  induction ds with
  | nil => intro acc; rfl
  | cons fv ds ih =>
    intro acc
    rw [List.foldl_cons, ih]
    by_cases hf : fv.1 ∈ allowed_fields ∧ (SHEET_COLUMNS.indexOf? fv.1).isSome
    · rw [if_pos hf]
      exact update_cell_frame _ _ _ _ (colNumOf_allowed fv.1 hf.1)
    · rw [if_neg hf]

theorem update_client_details_frame (store : List SheetRecord)
    (bsale_id : String) (details : List (String × String)) :
    (update_client_details store bsale_id details).1.map frameC1 =
      store.map frameC1 := by
  unfold update_client_details
  cases find_client_row store bsale_id with
  | none => rfl
  | some row => exact update_details_foldl_frame row details (store, false)

theorem clientCellUpdates_cols (rec : SheetRecord) (row : Nat)
    (c : SyncClient) (u : A1CellUpdate) (hu : u ∈ clientCellUpdates rec row c) :
    u.colLetter.toNat - 64 = 2 ∨ u.colLetter.toNat - 64 = 3 ∨
      u.colLetter.toNat - 64 = 4 ∨ u.colLetter.toNat - 64 = 5 ∨
      u.colLetter.toNat - 64 = 7 ∨ u.colLetter.toNat - 64 = 9 := by
  unfold clientCellUpdates at hu
  rcases List.mem_filterMap.mp hu with ⟨fv, hfv, hres⟩
  rcases Classical.em (fv.2 ≠ recordField rec fv.1) with hne | hne
  · rw [if_pos hne] at hres
    simp only [Option.some.injEq] at hres
    subst hres
    simp only [batch_update_fields, List.mem_cons, List.not_mem_nil,
      or_false] at hfv
    rcases hfv with rfl | rfl | rfl | rfl | rfl | rfl
    · exact Or.inl rfl
    · exact Or.inr (Or.inl rfl)
    · exact Or.inr (Or.inr (Or.inl rfl))
    · exact Or.inr (Or.inr (Or.inr (Or.inl rfl)))
    · exact Or.inr (Or.inr (Or.inr (Or.inr (Or.inl rfl))))
    · exact Or.inr (Or.inr (Or.inr (Or.inr (Or.inr rfl))))
  · rw [if_neg hne] at hres; cases hres

theorem applyA1Updates_frame :
    ∀ (us : List A1CellUpdate) (store : List SheetRecord),
      (∀ u ∈ us, u.colLetter.toNat - 64 = 2 ∨ u.colLetter.toNat - 64 = 3 ∨
        u.colLetter.toNat - 64 = 4 ∨ u.colLetter.toNat - 64 = 5 ∨
        u.colLetter.toNat - 64 = 7 ∨ u.colLetter.toNat - 64 = 9) →
      (applyA1Updates store us).map frameC1 = store.map frameC1 := by
  intro us
  induction us with
  | nil => intro store _; rfl
  | cons u us ih =>
    intro store h
    rw [applyA1Updates, ih _ (fun v hv => h v (List.mem_cons_of_mem _ hv))]
    exact update_cell_frame _ _ _ _ (h u (List.mem_cons_self _ _))

theorem batch_update_collect_cols (store : List SheetRecord) :
    ∀ (cs : List SyncClient) (u : A1CellUpdate),
      u ∈ (batch_update_collect store cs).1 →
      u.colLetter.toNat - 64 = 2 ∨ u.colLetter.toNat - 64 = 3 ∨
        u.colLetter.toNat - 64 = 4 ∨ u.colLetter.toNat - 64 = 5 ∨
        u.colLetter.toNat - 64 = 7 ∨ u.colLetter.toNat - 64 = 9 := by
  intro cs
  induction cs with
  | nil => intro u hu; simp [batch_update_collect] at hu
  | cons c cs ih =>
    intro u hu
    rw [batch_update_collect] at hu
    rcases hE : existingEntry store c.bsale_id with _ | ⟨row, rec⟩ <;>
      simp only [hE] at hu
    · exact ih u hu
    · by_cases hc : (clientCellUpdates rec row c).isEmpty
      · rw [if_pos hc] at hu; exact ih u hu
      · rw [if_neg hc] at hu
        simp only [] at hu
        rcases List.mem_append.mp hu with h | h
        · exact clientCellUpdates_cols rec row c u h
        · exact ih u h

/-- C1.  The reconciliation update step writes only the descriptive
fields name, company, phone, address, district and city of
already-known rows: for every store, every batch of clients and every
single-row detail update, the verified flag, maps link, stored
latitude/longitude and user-edited `clean_address` of every row are
left exactly as they were. -/
theorem reconcile_update_frame (store : List SheetRecord)
    (clients : List SyncClient) (bsale_id : String)
    (details : List (String × String)) :
    (batch_update_client_details store clients).1.map frameC1 =
        store.map frameC1 ∧
      (update_client_details store bsale_id details).1.map frameC1 =
        store.map frameC1 := by
  constructor
  · simp only [batch_update_client_details]
    by_cases hc : (batch_update_collect store clients).1.isEmpty
    · rw [if_pos hc]
    · rw [if_neg hc]
      exact applyA1Updates_frame _ _ (batch_update_collect_cols store clients)
  · exact update_client_details_frame store bsale_id details

/-! ### C10: idempotence of `add_clients` with respect to identifiers -/

theorem add_clients_loop_skip_all (ids : List String) (now : String) :
    ∀ (cs : List SyncClient), (∀ c ∈ cs, c.bsale_id ∈ ids) →
      add_clients_loop ids now cs = ([], 0) := by
  intro cs
  induction cs with
  | nil => intro _; rfl
  | cons c cs ih =>
    intro h
    rw [add_clients_loop, if_pos (h c (List.mem_cons_self _ _))]
    exact ih fun c' hc' => h c' (List.mem_cons_of_mem _ hc')

theorem add_clients_loop_rows (ids : List String) (now : String) :
    ∀ (cs : List SyncClient) (r : SheetRecord),
      r ∈ (add_clients_loop ids now cs).1 →
      ∃ c ∈ cs, r = add_clients_row c now ∧ c.bsale_id ∉ ids := by
  intro cs
  induction cs with
  | nil => intro r hr; simp [add_clients_loop] at hr
  | cons c cs ih =>
    intro r hr
    rw [add_clients_loop] at hr
    by_cases hc : c.bsale_id ∈ ids
    · rw [if_pos hc] at hr
      obtain ⟨c', hc', he⟩ := ih r hr
      exact ⟨c', List.mem_cons_of_mem _ hc', he⟩
    · rw [if_neg hc] at hr
      rcases List.mem_cons.mp hr with rfl | hr
      · exact ⟨c, List.mem_cons_self _ _, rfl, hc⟩
      · obtain ⟨c', hc', he⟩ := ih r hr
        exact ⟨c', List.mem_cons_of_mem _ hc', he⟩

theorem add_clients_loop_covers (ids : List String) (now : String) :
    ∀ (cs : List SyncClient) (c : SyncClient), c ∈ cs →
      c.bsale_id ∈ ids ∨
        c.bsale_id ∈ (add_clients_loop ids now cs).1.map (·.bsale_id) := by
  intro cs
  induction cs with
  | nil => intro c hc; cases hc
  | cons c' cs ih =>
    intro c hc
    rw [add_clients_loop]
    by_cases hc' : c'.bsale_id ∈ ids
    · rw [if_pos hc']
      rcases List.mem_cons.mp hc with rfl | hc
      · exact Or.inl hc'
      · exact ih c hc
    · rw [if_neg hc']
      rcases List.mem_cons.mp hc with rfl | hc
      · exact Or.inr (by simp [add_clients_row])
      · rcases ih c hc with h | h
        · exact Or.inl h
        · exact Or.inr (by simp only [List.map_cons, List.mem_cons]; exact Or.inr h)

/-- C10 (amended).  For client lists in which every client carries a
non-empty identifier, `add_clients` is idempotent: an immediately
repeated call with the same list appends no rows and returns 0, and
no row appended by the first call carries an identifier that was
already present in the store's identifier column. -/
theorem add_clients_idempotent_nonempty_ids (store : List SheetRecord)
    (clients : List SyncClient) (t1 t2 : String)
    (h : ∀ c ∈ clients, c.bsale_id ≠ "") :
    (add_clients (add_clients store clients t1).1 clients t2).1 =
        (add_clients store clients t1).1 ∧
      (add_clients (add_clients store clients t1).1 clients t2).2 = 0 ∧
      ∀ r ∈ ((add_clients store clients t1).1).drop store.length,
        r.bsale_id ∉ store.map (·.bsale_id) := by
  simp only [add_clients]
  rw [List.drop_left]
  set ids1 := (store.map (·.bsale_id)).filter (· ≠ "") with hids1
  set rows1 := (add_clients_loop ids1 t1 clients).1 with hrows1
  have hcover : ∀ c ∈ clients, c.bsale_id ∈
      ((store ++ rows1).map (·.bsale_id)).filter (· ≠ "") := by
    intro c hc
    have hne := h c hc
    refine List.mem_filter.mpr ⟨?_, by simpa using hne⟩
    simp only [List.map_append, List.mem_append]
    rcases add_clients_loop_covers ids1 t1 clients c hc with hin | hin
    · left
      rw [hids1] at hin
      exact (List.mem_filter.mp hin).1
    · right
      rw [hrows1]
      exact hin
  have hskip := add_clients_loop_skip_all
    (((store ++ rows1).map (·.bsale_id)).filter (· ≠ "")) t2 clients hcover
  refine ⟨?_, ?_, ?_⟩
  · rw [hskip]
    simp
  · rw [hskip]
  · intro r hr
    rw [hrows1] at hr
    obtain ⟨c, hc, rfl, hnotin⟩ := add_clients_loop_rows ids1 t1 clients r hr
    intro hmem
    have hin1 : (add_clients_row c t1).bsale_id ∈ ids1 := by
      rw [hids1]
      refine List.mem_filter.mpr ⟨hmem, ?_⟩
      simpa [add_clients_row] using h c hc
    exact hnotin (by simpa [add_clients_row] using hin1)

/-- A client dictionary with no (equivalently, an empty) `bsale_id`,
as `str(client.get("bsale_id", ""))` produces for it. -/
def emptyIdClient : SyncClient :=
  { bsale_id := "", firstName := "", lastName := "", company := "",
    phone := "", address := "", city := "", district := "", maps_link := "" }

/-- C10 counterexample: `add_clients` filters falsy cells out of the
pre-read identifier set, so a client whose identifier is empty is
appended again by a repeated call — the second call returns 1 (not 0)
and grows the store to two rows. -/
theorem add_clients_not_idempotent_counterexample :
    (add_clients (add_clients [] [emptyIdClient] "t1").1 [emptyIdClient]
        "t2").2 = 1 ∧
      (add_clients (add_clients [] [emptyIdClient] "t1").1 [emptyIdClient]
        "t2").2 ≠ 0 ∧
      (add_clients (add_clients [] [emptyIdClient] "t1").1 [emptyIdClient]
        "t2").1.length = 2 := by
  refine ⟨rfl, ?_, rfl⟩
  intro h
  cases h

/-- C10 witness: the amended theorem applied to a concrete store and
client list with a non-empty identifier. -/
theorem add_clients_idempotent_nonempty_ids_witness :
    (∀ c ∈ [{ emptyIdClient with bsale_id := "7" }], c.bsale_id ≠ "") ∧
      ((add_clients (add_clients [] [{ emptyIdClient with bsale_id := "7" }]
            "t1").1 [{ emptyIdClient with bsale_id := "7" }] "t2").1 =
          (add_clients ([] : List SheetRecord)
            [{ emptyIdClient with bsale_id := "7" }] "t1").1 ∧
        (add_clients (add_clients [] [{ emptyIdClient with bsale_id := "7" }]
            "t1").1 [{ emptyIdClient with bsale_id := "7" }] "t2").2 = 0 ∧
        ∀ r ∈ ((add_clients ([] : List SheetRecord)
            [{ emptyIdClient with bsale_id := "7" }] "t1").1).drop
              ([] : List SheetRecord).length,
          r.bsale_id ∉ ([] : List SheetRecord).map (·.bsale_id)) :=
  ⟨by decide, add_clients_idempotent_nonempty_ids []
    [{ emptyIdClient with bsale_id := "7" }] "t1" "t2" (by decide)⟩

/-! ## The directory cache (`app.py`, `CLIENTS_CACHE` and
`fetch_bsale_clients_from_api`) -/

/-- One client entry of the in-memory Bsale cache, in the shape built
from an API item at lines 427-436 of `app.py` (these rows carry no
phone field). -/
structure BsaleClient where
  id : Nat
  firstName : String
  lastName : String
  company : String
  address : String
  city : String
  district : String
  code : String
deriving DecidableEq, Inhabited

/-- One page of the paginated `clients.json` response, already shaped
into cache entries (the raw-JSON reshaping loop is pointwise and
pure). -/
structure BsalePage where
  count : Nat
  items : List BsaleClient
deriving DecidableEq, Inhabited

/-- The `CLIENTS_CACHE` global. -/
structure ClientsCache where
  clients : List BsaleClient
  loaded : Bool
  loading : Bool
  loading_progress : Nat
  total_count : Nat
  last_updated : Option String
deriving DecidableEq, Inhabited

/-- Outcome of one run of the `while True` pagination loop. -/
inductive FetchLoopResult
  | ok (clients : List BsaleClient) (total : Nat)
  | netError (e : String)
  | running
deriving DecidableEq

/-- The pagination loop of `fetch_bsale_clients_from_api`.  The remote
is an oracle from the request offset to a page or a network error; the
fuel bounds the iteration count (`running` models a loop that is still
going when the fuel runs out — a server that keeps growing `count`
never terminates the Python loop either).  Progress fields of the
cache are updated after every page, exactly as in the source. -/
def fetch_bsale_loop (api : Nat → Except String BsalePage) :
    Nat → Nat → List BsaleClient → ClientsCache →
      ClientsCache × FetchLoopResult
  | 0, _, _, st => (st, .running)
  | fuel + 1, offset, acc, st =>
    match api offset with
    | .error e => (st, .netError e)
    | .ok page =>
      let st := { st with
        total_count := page.count,
        loading_progress := min (offset + page.items.length) page.count }
      if page.items.isEmpty then (st, .ok acc page.count)
      else
        let acc := acc ++ page.items
        let offset := offset + 50
        if page.count ≤ offset then (st, .ok acc page.count)
        else fetch_bsale_loop api fuel offset acc st

/-- Result of a call to `fetch_bsale_clients_from_api`. -/
inductive FetchOutcome
  | skippedLoading
  | noToken
  | success
  | netError (e : String)
  | running
deriving DecidableEq

/-- `fetch_bsale_clients_from_api()` from `app.py`: a call while a
load is in flight returns the cached list untouched; with no token it
returns an empty list; otherwise it paginates, and on success replaces
the cached collection, marks it loaded and stamps the refresh time,
while on a network error it returns the previously cached collection.
The `finally` block clears the `loading` flag on both paths.  The
`save_clients_to_file` persistence call has no effect on the modelled
state. -/
def fetch_bsale_clients_from_api (api : Nat → Except String BsalePage)
    (hasToken : Bool) (now : String) (fuel : Nat) (st : ClientsCache) :
    ClientsCache × List BsaleClient × FetchOutcome :=
  if st.loading then (st, st.clients, .skippedLoading)
  else if !hasToken then (st, [], .noToken)
  else
    let st1 := { st with loading := true, loading_progress := 0 }
    match fetch_bsale_loop api fuel 0 [] st1 with
    | (st2, .ok clients total) =>
      ({ st2 with
          clients := clients
          loaded := true
          loading_progress := total
          last_updated := some now
          loading := false }, clients, .success)
    | (st2, .netError e) =>
      ({ st2 with loading := false }, st2.clients, .netError e)
    | (st2, .running) => (st2, [], .running)

theorem fetch_bsale_loop_clients (api : Nat → Except String BsalePage) :
    ∀ (fuel offset : Nat) (acc : List BsaleClient) (st : ClientsCache),
      (fetch_bsale_loop api fuel offset acc st).1.clients = st.clients := by
  intro fuel
  induction fuel with
  | zero => intro offset acc st; rfl
  | succ n ih =>
    intro offset acc st
    rw [fetch_bsale_loop]
    split
    · rfl
    · dsimp only
      split
      · rfl
      · split
        · rfl
        · rw [ih]

/-- C4.  If a remote refresh fails partway through pagination, the
cached client collection is exactly what it was before the call, and
the call returns that last good collection — no partially fetched page
set ever replaces the cache (only the progress counters and the
`loading` flag are touched). -/
theorem fetch_failure_keeps_cache (api : Nat → Except String BsalePage)
    (hasToken : Bool) (now : String) (fuel : Nat) (st : ClientsCache)
    (e : String)
    (hfail : (fetch_bsale_clients_from_api api hasToken now fuel st).2.2 =
      .netError e) :
    (fetch_bsale_clients_from_api api hasToken now fuel st).1.clients =
        st.clients ∧
      (fetch_bsale_clients_from_api api hasToken now fuel st).2.1 =
        st.clients := by
  unfold fetch_bsale_clients_from_api at hfail ⊢
  by_cases hl : st.loading
  · rw [if_pos hl] at hfail; cases hfail
  · rw [if_neg hl] at hfail ⊢
    by_cases ht : !hasToken
    · rw [if_pos ht] at hfail; cases hfail
    · rw [if_neg ht] at hfail ⊢
      dsimp only at hfail ⊢
      rcases hloop : fetch_bsale_loop api fuel 0 []
          { st with loading := true, loading_progress := 0 } with ⟨st2, res⟩
      have hcl : st2.clients = st.clients := by
        have h2 := fetch_bsale_loop_clients api fuel 0 []
          { st with loading := true, loading_progress := 0 }
        rw [hloop] at h2
        exact h2
      rw [hloop] at hfail
      rcases res with ⟨cl, total⟩ | e' | _ <;> dsimp only at hfail ⊢
      · cases hfail
      · cases hfail
        exact ⟨hcl, hcl⟩
      · cases hfail

/-- C4 witness: a remote directory of 120 clients whose second page
request fails leaves the cache collection untouched and returns it. -/
def failingApi : Nat → Except String BsalePage :=
  fun offset =>
    if offset = 0 then
      .ok { count := 120
            items := [{ id := 1, firstName := "A", lastName := "",
                        company := "", address := "", city := "",
                        district := "", code := "" }] }
    else .error "connection reset"

def cacheBefore : ClientsCache :=
  { clients := [{ id := 9, firstName := "Old", lastName := "",
                  company := "", address := "", city := "",
                  district := "", code := "" }]
    loaded := true
    loading := false
    loading_progress := 1
    total_count := 1
    last_updated := some "t0" }

theorem fetch_failure_keeps_cache_witness :
    (fetch_bsale_clients_from_api failingApi true "t1" 5 cacheBefore).2.2 =
        .netError "connection reset" ∧
      ((fetch_bsale_clients_from_api failingApi true "t1" 5
          cacheBefore).1.clients = cacheBefore.clients ∧
        (fetch_bsale_clients_from_api failingApi true "t1" 5
          cacheBefore).2.1 = cacheBefore.clients) :=
  ⟨by decide, fetch_failure_keeps_cache failingApi true "t1" 5 cacheBefore
    "connection reset" (by decide)⟩

/-! ## Reconciliation (`app.py`, `SYNC_STATE`, `/api/sheets/sync`) -/

/-- The `SYNC_STATE` global. -/
structure SyncState where
  syncing : Bool
  stage : String
  progress : Nat
  total : Nat
  message : String
  new_clients : Nat
  updated_clients : Nat
  error : Option String
deriving DecidableEq, Inhabited

/-- The JSON response of the sync trigger endpoint. -/
inductive TriggerResponse
  | alreadySyncing
  | started
deriving DecidableEq

/-- `sync_bsale_to_sheets` (`/api/sheets/sync`): a trigger arriving
while `SYNC_STATE["syncing"]` is set answers "already syncing" without
touching the state or spawning a thread; otherwise it spawns
`run_sync_with_progress` on a daemon thread (the boolean records that
a run was started) and answers "started". -/
def sync_bsale_to_sheets (st : SyncState) :
    SyncState × TriggerResponse × Bool :=
  if st.syncing then (st, .alreadySyncing, false)
  else (st, .started, true)

/-- The collaborator calls made inside the `try` block of
`run_sync_with_progress`, each modelled as returning a value or
raising an exception (`Except.error` carries `str(e)`). -/
structure SyncOracles where
  fetch_all_bsale_clients : Except String (List SyncClient)
  get_existing_bsale_ids : Except String (List String)
  batch_update : List SyncClient → Except String Nat
  geocode_address : String → String → String → Except String String
  add_clients : List SyncClient → Except String Nat

/-- How one background run ends. -/
inductive RunOutcome
  | completed
  | emptyBsale
  | raised (e : String)
deriving DecidableEq

/-- The fresh state installed at the start of a run. -/
def resetSyncState : SyncState :=
  { syncing := true, stage := "fetching_bsale", progress := 0, total := 0,
    message := "Conectando con Bsale...", new_clients := 0,
    updated_clients := 0, error := none }

/-- The `except` handler: stage to `error`, capture the message,
release the single-flight flag; every other field keeps the value it
had when the exception was raised. -/
def syncErrorState (st : SyncState) (e : String) : SyncState :=
  { st with stage := "error", error := some e, syncing := false }

/-- One collaborator call inside the `try` block: an exception
transfers control to the `except` handler with the state as mutated so
far; a normal return continues with the rest of the run. -/
def syncStep {α : Type} (st : SyncState) (r : Except String α)
    (k : α → SyncState × RunOutcome) : SyncState × RunOutcome :=
  match r with
  | .error e => (syncErrorState st e, .raised e)
  | .ok a => k a

/-- The final `done` transition. -/
def syncDone (st : SyncState) : SyncState × RunOutcome :=
  ({ st with
      stage := "done"
      message := "¡Sincronización completa!"
      syncing := false }, .completed)

/-- The geocoding loop over the new clients: each client with an
address is geocoded into a best-effort maps link (stored on the
client), and the progress counter and message are updated after each
iteration; an exception from the geocoder aborts the loop with the
state reached so far. -/
def sync_geocode_loop (geocode : String → String → String → Except String String)
    (n : Nat) : Nat → SyncState → List SyncClient →
      SyncState × Except String (List SyncClient)
  | _, st, [] => (st, .ok [])
  | i, st, c :: cs =>
    match (if c.address ≠ "" then
        (geocode c.address c.city c.district).map
          (fun ml => { c with maps_link := ml })
      else .ok { c with maps_link := "" }) with
    | .error e => (st, .error e)
    | .ok enriched =>
      let st := { st with
        progress := i + 1
        message := "Geocodificando " ++ toString (i + 1) ++ "/" ++
          toString n ++ "..." }
      match sync_geocode_loop geocode n (i + 1) st cs with
      | (st, .error e) => (st, .error e)
      | (st, .ok rest) => (st, .ok (enriched :: rest))

/-- Steps 4 and 5 of the run (geocode the new clients, then append
them), entered after the comparison and update phases. -/
def runGeocodeAdd (o : SyncOracles) (st : SyncState)
    (new_clients : List SyncClient) : SyncState × RunOutcome :=
  if new_clients.isEmpty then syncDone st
  else
    let st := { st with
      stage := "geocoding"
      message := "Geocodificando " ++ toString new_clients.length ++
        " clientes nuevos..." }
    match sync_geocode_loop o.geocode_address new_clients.length 0 st
        new_clients with
    | (st, .error e) => (syncErrorState st e, .raised e)
    | (st, .ok enriched) =>
      let st := { st with
        stage := "adding"
        message := "Agregando clientes nuevos..." }
      syncStep st (o.add_clients enriched) fun _ => syncDone st

/-- `run_sync_with_progress` from `app.py`: replace the state
wholesale, fetch the remote directory, partition against the stored
identifiers, update the descriptive fields of known clients, geocode
and append the new ones; any exception lands in the `except` handler
(`syncStep`), and an empty fetch result is reported as an error
message without an exception. -/
def run_sync_with_progress (o : SyncOracles) : SyncState × RunOutcome :=
  let st := resetSyncState
  let st := { st with message := "Obteniendo clientes de Bsale..." }
  syncStep st o.fetch_all_bsale_clients fun bsale_clients =>
    if bsale_clients.isEmpty then
      ({ st with
          stage := "error"
          error := some "No se pudieron obtener clientes de Bsale"
          syncing := false }, .emptyBsale)
    else
      let st := { st with
        total := bsale_clients.length
        stage := "comparing"
        message := "Comparando con base de datos..." }
      syncStep st o.get_existing_bsale_ids fun existing_ids =>
        let new_clients :=
          bsale_clients.filter (fun c => !(existing_ids.contains c.bsale_id))
        let existing_clients :=
          bsale_clients.filter (fun c => existing_ids.contains c.bsale_id)
        let st := { st with new_clients := new_clients.length }
        if existing_clients.isEmpty then runGeocodeAdd o st new_clients
        else
          let st := { st with
            stage := "updating"
            message := "Verificando cambios en " ++
              toString existing_clients.length ++ " clientes..." }
          syncStep st (o.batch_update existing_clients) fun updated =>
            runGeocodeAdd o { st with updated_clients := updated } new_clients

/-- A run result honours the exception contract: whenever it reports
`raised e`, its final state carries stage `error`, the captured
message, and a released single-flight flag. -/
def SyncErrOk (p : SyncState × RunOutcome) : Prop :=
  ∀ e, p.2 = .raised e →
    p.1.stage = "error" ∧ p.1.error = some e ∧ p.1.syncing = false

theorem syncErrOk_syncDone (st : SyncState) : SyncErrOk (syncDone st) := by
  intro e he
  cases he

theorem syncErrOk_syncStep {α : Type} (st : SyncState) (r : Except String α)
    (k : α → SyncState × RunOutcome) (hk : ∀ a, SyncErrOk (k a)) :
    SyncErrOk (syncStep st r k) := by
  rcases r with e' | a
  · intro e he
    cases he
    exact ⟨rfl, rfl, rfl⟩
  · exact hk a

theorem syncErrOk_runGeocodeAdd (o : SyncOracles) (st : SyncState)
    (new_clients : List SyncClient) :
    SyncErrOk (runGeocodeAdd o st new_clients) := by
  unfold runGeocodeAdd
  by_cases hn : new_clients.isEmpty
  · rw [if_pos hn]
    exact syncErrOk_syncDone _
  · rw [if_neg hn]
    dsimp only
    rcases hloop : sync_geocode_loop o.geocode_address new_clients.length 0
        { st with
          stage := "geocoding"
          message := "Geocodificando " ++ toString new_clients.length ++
            " clientes nuevos..." } new_clients with ⟨st2, r⟩
    rcases r with e' | enriched <;> dsimp only
    · intro e he
      cases he
      exact ⟨rfl, rfl, rfl⟩
    · exact syncErrOk_syncStep _ _ _ (fun _ => syncErrOk_syncDone _)

/-- C7.  For every exception raised during any phase of a
reconciliation run (fetch, compare, update, geocode, add), the run
ends with the stage set to `error`, the error field holding the
captured exception message, and the single-flight flag released; the
run function is total, so the host process never crashes. -/
theorem run_sync_exception_handling (o : SyncOracles) (e : String)
    (hraise : (run_sync_with_progress o).2 = .raised e) :
    (run_sync_with_progress o).1.stage = "error" ∧
      (run_sync_with_progress o).1.error = some e ∧
      (run_sync_with_progress o).1.syncing = false := by
  refine (?_ : SyncErrOk (run_sync_with_progress o)) e hraise
  unfold run_sync_with_progress
  apply syncErrOk_syncStep
  intro bsale_clients
  by_cases hb : bsale_clients.isEmpty
  · rw [if_pos hb]
    intro e' he'
    cases he'
  · rw [if_neg hb]
    apply syncErrOk_syncStep
    intro existing_ids
    by_cases hex : (bsale_clients.filter
        (fun c => existing_ids.contains c.bsale_id)).isEmpty
    · rw [if_pos hex]
      apply syncErrOk_runGeocodeAdd
    · rw [if_neg hex]
      apply syncErrOk_syncStep
      intro updated
      apply syncErrOk_runGeocodeAdd

/-- A concrete oracle set whose directory fetch raises. -/
def failingSyncOracles : SyncOracles :=
  { fetch_all_bsale_clients := .error "boom"
    get_existing_bsale_ids := .ok []
    batch_update := fun _ => .ok 0
    geocode_address := fun _ _ _ => .ok ""
    add_clients := fun _ => .ok 0 }

/-- C7 witness: the theorem applied to a run whose fetch phase
raises. -/
theorem run_sync_exception_handling_witness :
    (run_sync_with_progress failingSyncOracles).2 = .raised "boom" ∧
      ((run_sync_with_progress failingSyncOracles).1.stage = "error" ∧
        (run_sync_with_progress failingSyncOracles).1.error = some "boom" ∧
        (run_sync_with_progress failingSyncOracles).1.syncing = false) :=
  ⟨by decide, run_sync_exception_handling failingSyncOracles "boom" (by decide)⟩

/-- C6.  A reconciliation trigger received while a run is already in
flight returns the "already running" response and leaves the
in-progress state completely unchanged — no stage, counter or message
reset — and does not start a second run. -/
theorem sync_trigger_single_flight (st : SyncState)
    (h : st.syncing = true) :
    sync_bsale_to_sheets st = (st, .alreadySyncing, false) := by
  rw [sync_bsale_to_sheets, if_pos h]

/-- A state captured mid-run, as a poller would see it. -/
def midRunState : SyncState :=
  { syncing := true, stage := "geocoding", progress := 3, total := 12,
    message := "Geocodificando 3/12...", new_clients := 12,
    updated_clients := 4, error := none }

/-- C6 witness: the theorem applied to a concrete in-flight state. -/
theorem sync_trigger_single_flight_witness :
    midRunState.syncing = true ∧
      sync_bsale_to_sheets midRunState =
        (midRunState, .alreadySyncing, false) :=
  ⟨rfl, sync_trigger_single_flight midRunState rfl⟩

/-! ## Per-stop resolution (`app.py`, `optimize`, lines 3677-3738) -/

/-- A client record as `optimize` reads it from the Google Sheets
snapshot (`get_all_clients` output: strings, with `lat`/`lng` parsed
to floats or `None`). -/
structure SheetsOptClient where
  bsale_id : String
  name : String
  company : String
  phone : String
  address : String
  clean_address : String
  district : String
  verified_district : String
  city : String
  maps_link : String
  lat : Option ℚ
  lng : Option ℚ
  verified : String
  last_updated : String
deriving DecidableEq, Inhabited

/-- The per-stop entry `optimize` appends to `waypoint_info`. -/
structure WaypointInfo where
  coords : PyFloat × PyFloat
  client_name : String
  address : String
  phone : String
  clean_address : String
  district : String
  is_client : Bool
deriving DecidableEq

/-- Truthiness of a stored coordinate cell (`None` and `0.0` are both
falsy). -/
def truthyCoord : Option ℚ → Bool
  | none => false
  | some q => q != 0

/-- The Bsale-cache fallback and final packaging of the resolution
chain: when no coordinates were resolved from the verified store, the
cache entry's display data replace the collected metadata (cache rows
carry no phone field) and its address is geocoded; the collected
`clean_address` is kept either way; a stop resolving no coordinates is
dropped (`none`). -/
def resolveFallback (bsale_client : Option BsaleClient)
    (geocode : String → String → String → Option (ℚ × ℚ))
    (coords : Option (PyFloat × PyFloat))
    (client_name client_address client_phone client_clean_address
      client_district : String) : Option WaypointInfo :=
  let packed :
      Option (PyFloat × PyFloat) × String × String × String × String :=
    match coords with
    | some c => (some c, client_name, client_address, client_phone,
        client_district)
    | none =>
      match bsale_client with
      | some bc =>
        ((geocode bc.address bc.city bc.district).map
            (fun p => ((.finite p.1 : PyFloat), (.finite p.2 : PyFloat))),
          pyStripStr (bc.firstName ++ " " ++ bc.lastName), bc.address, "",
          bc.district)
      | none => (none, client_name, client_address, client_phone,
          client_district)
  match packed with
  | (some c, nm, addr, ph, dist) =>
    some { coords := c, client_name := nm, address := addr, phone := ph,
           clean_address := client_clean_address, district := dist,
           is_client := true }
  | (none, _, _, _, _) => none

/-- The per-client resolution chain of `optimize`: try the verified
store record's maps link (through the link extractor; an escaping
`ValueError` from the extractor propagates), then its stored
coordinates, then geocode its address, then fall back to the
directory-cache entry and geocode that; the first success wins.  The
verified flag of the record is never consulted. -/
def resolve_client_stop (resolveShort : List Char → Option (List Char))
    (sheets_client : Option SheetsOptClient)
    (bsale_client : Option BsaleClient)
    (geocode : String → String → String → Option (ℚ × ℚ)) :
    Except Unit (Option WaypointInfo) :=
  match sheets_client with
  | some sc =>
    let client_district :=
      if sc.verified_district ≠ "" then sc.verified_district else sc.district
    let coords0 : Except Unit (Option (PyFloat × PyFloat)) :=
      if sc.maps_link ≠ "" then
        match extract_coords_from_url resolveShort sc.maps_link.toList with
        | .ok c => .ok c
        | .valueError => .error ()
      else .ok none
    match coords0 with
    | .error _ => .error ()
    | .ok c0 =>
      let c1 :=
        match c0 with
        | none =>
          if truthyCoord sc.lat && truthyCoord sc.lng then
            match sc.lat, sc.lng with
            | some a, some b => some ((.finite a : PyFloat), (.finite b : PyFloat))
            | _, _ => none
          else none
        | c => c
      let c2 :=
        match c1 with
        | none =>
          if sc.address ≠ "" then
            (geocode sc.address sc.city sc.district).map
              (fun p => ((.finite p.1 : PyFloat), (.finite p.2 : PyFloat)))
          else none
        | c => c
      .ok (resolveFallback bsale_client geocode c2 sc.name sc.address
        sc.phone sc.clean_address client_district)
  | none =>
    .ok (resolveFallback bsale_client geocode none "" "" "" "" "")

/-- The waypoint entry the chain produces when the store record's maps
link yields the coordinates: all display metadata comes from the store
record, none from the cache or the geocoder. -/
def linkWaypointInfo (sc : SheetsOptClient) (c : PyFloat × PyFloat) :
    WaypointInfo :=
  { coords := c
    client_name := sc.name
    address := sc.address
    phone := sc.phone
    clean_address := sc.clean_address
    district := if sc.verified_district ≠ "" then sc.verified_district
      else sc.district
    is_client := true }

theorem resolve_uses_link_coords
    (resolveShort : List Char → Option (List Char)) (sc : SheetsOptClient)
    (bsale_client : Option BsaleClient)
    (geocode : String → String → String → Option (ℚ × ℚ))
    (c : PyFloat × PyFloat) (hlink : sc.maps_link ≠ "")
    (hex : extract_coords_from_url resolveShort sc.maps_link.toList =
      .ok (some c)) :
    resolve_client_stop resolveShort (some sc) bsale_client geocode =
      .ok (some (linkWaypointInfo sc c)) := by
  simp only [resolve_client_stop]
  rw [if_pos hlink, hex]
  dsimp only
  simp only [resolveFallback]
  rfl

/-- C5.  A stop whose verified-store record is verified and carries a
maps link from which coordinates can be extracted resolves to exactly
those link coordinates; the stored lat/lng, the address geocoding and
the directory-cache fallback are not attempted — the conclusion holds
for every stored coordinate pair, every geocoding oracle and every
cache entry, including ones that would geocode the stop elsewhere.
(The code reaches this conclusion without reading the verified flag;
the hypothesis states the claim's precondition.) -/
theorem verified_link_stop_resolution
    (resolveShort : List Char → Option (List Char)) (sc : SheetsOptClient)
    (bsale_client : Option BsaleClient)
    (geocode : String → String → String → Option (ℚ × ℚ))
    (c : PyFloat × PyFloat) (_hv : sc.verified = "yes")
    (hlink : sc.maps_link ≠ "")
    (hex : extract_coords_from_url resolveShort sc.maps_link.toList =
      .ok (some c)) :
    resolve_client_stop resolveShort (some sc) bsale_client geocode =
      .ok (some (linkWaypointInfo sc c)) :=
  resolve_uses_link_coords resolveShort sc bsale_client geocode c hlink hex

/-- A verified record carrying a viewport-centre maps link. -/
def verifiedStopRecord : SheetsOptClient :=
  { bsale_id := "5", name := "Ana", company := "", phone := "999"
    address := "Av. Lima 1", clean_address := "Av. Lima 1, Miraflores"
    district := "Miraflores", verified_district := "Miraflores"
    city := "Lima", maps_link := "https://maps.google.com/@-12.5,-77.25,17z"
    lat := some 9, lng := some 9, verified := "yes", last_updated := "t0" }

/-- A contradicting directory-cache entry for the same stop. -/
def contradictingCacheEntry : BsaleClient :=
  { id := 5, firstName := "Ana", lastName := "", company := ""
    address := "Otra calle 9", city := "Lima", district := "Surco"
    code := "" }

/-- C5 witness: the theorem applied to a concrete verified record, a
contradicting cache entry and a geocoder that would place the stop
elsewhere. -/
theorem verified_link_stop_resolution_witness :
    verifiedStopRecord.verified = "yes" ∧
      verifiedStopRecord.maps_link ≠ "" ∧
      extract_coords_from_url (fun _ => none)
          verifiedStopRecord.maps_link.toList =
        .ok (some (floatOfToken "-12.5".toList, floatOfToken "-77.25".toList)) ∧
      resolve_client_stop (fun _ => none) (some verifiedStopRecord)
          (some contradictingCacheEntry) (fun _ _ _ => some (1, 1)) =
        .ok (some (linkWaypointInfo verifiedStopRecord
          (floatOfToken "-12.5".toList, floatOfToken "-77.25".toList))) :=
  ⟨rfl, by decide, rfl,
    verified_link_stop_resolution (fun _ => none) verifiedStopRecord
      (some contradictingCacheEntry) (fun _ _ _ => some (1, 1))
      (floatOfToken "-12.5".toList, floatOfToken "-77.25".toList) rfl
      (by decide) rfl⟩

/-- C9.  The resolution chain never consults the verified flag when
trusting a stored maps link: an unverified record (the empty flag that
`add_clients` writes) with an extractable link resolves to the link
coordinates exactly as a verified one does; and the rows `add_clients`
appends carry the geocoded `maps_link` together with an empty
`verified` cell, so automatically geocoded links are consumed by this
path. -/
theorem resolution_ignores_verified_flag :
    (∀ (resolveShort : List Char → Option (List Char))
      (sc : SheetsOptClient) (bsale_client : Option BsaleClient)
      (geocode : String → String → String → Option (ℚ × ℚ))
      (c : PyFloat × PyFloat), sc.verified = "" → sc.maps_link ≠ "" →
      extract_coords_from_url resolveShort sc.maps_link.toList =
        .ok (some c) →
      resolve_client_stop resolveShort (some sc) bsale_client geocode =
        .ok (some (linkWaypointInfo sc c))) ∧
    ∀ (cl : SyncClient) (now : String),
      (add_clients_row cl now).verified = "" ∧
        (add_clients_row cl now).maps_link = cl.maps_link := by
  constructor
  · intro resolveShort sc bsale_client geocode c _hv hlink hex
    exact resolve_uses_link_coords resolveShort sc bsale_client geocode c
      hlink hex
  · intro cl now
    exact ⟨rfl, rfl⟩

/-- An unverified record holding an automatically geocoded link (the
shape `geocode_address` produces). -/
def unverifiedStopRecord : SheetsOptClient :=
  { verifiedStopRecord with
      verified := ""
      maps_link := "https://www.google.com/maps?q=-12.04,-77.03" }

/-- C9 witness: the first conjunct applied to a concrete unverified
record. -/
theorem resolution_ignores_verified_flag_witness :
    unverifiedStopRecord.verified = "" ∧
      unverifiedStopRecord.maps_link ≠ "" ∧
      extract_coords_from_url (fun _ => none)
          unverifiedStopRecord.maps_link.toList =
        .ok (some (floatOfToken "-12.04".toList, floatOfToken "-77.03".toList)) ∧
      resolve_client_stop (fun _ => none) (some unverifiedStopRecord)
          (some contradictingCacheEntry) (fun _ _ _ => some (1, 1)) =
        .ok (some (linkWaypointInfo unverifiedStopRecord
          (floatOfToken "-12.04".toList, floatOfToken "-77.03".toList))) :=
  ⟨rfl, by decide, rfl,
    resolution_ignores_verified_flag.1 (fun _ => none) unverifiedStopRecord
      (some contradictingCacheEntry) (fun _ _ _ => some (1, 1))
      (floatOfToken "-12.04".toList, floatOfToken "-77.03".toList) rfl
      (by decide) rfl⟩

end RouteOptimizer
